import Mathlib

/-!
Verification of the keyframe timeline engine of the Horticultural LED Designer
(src/components/HorticulturalLEDDesigner.tsx).

The embedding below translates the pure computational core of that component:
the timeline sampler `updateGridFromTimeline` (lines 197-241), the device frame
encoder `sendGridToArduino` (lines 361-386), the grid-resize effect
(lines 419-427), the keyframe store operations `deleteKeyframe`,
`updateKeyframeTime`, `updateKeyframeName` (lines 560-603),
`handleTotalDaysChange` (lines 643-663) and the spectral summary `liveAnalysis`
(lines 464-484).

JavaScript numbers are modelled as exact rationals (`Rat`); `Math.round` is
`fun q => ⌊q + 1/2⌋` (round half toward positive infinity, the JS behaviour);
`Uint8Array` writes are modelled with `List.set`, which like a typed-array
store is a no-op when the index is out of range; `JSON.parse(JSON.stringify x)`
deep copies are value copies in this purely functional model.
-/

namespace HortLED

/-- One LED cell: `r`,`g`,`b` colour components and an `active` flag
(the CellState shape used throughout the component). -/
structure Cell where
  r : Int
  g : Int
  b : Int
  active : Bool
deriving DecidableEq

/-- The default/fallback cell `{ r: 0, g: 0, b: 0, active: false }` used for
missing cell data. -/
def blackCell : Cell := ⟨0, 0, 0, false⟩

/-- A keyframe: numeric id, a `time` within the cycle, a display name, and a
full grid snapshot (the Keyframe shape used throughout the component). -/
structure Keyframe where
  id : Rat
  time : Rat
  name : String
  grid : List Cell
deriving DecidableEq

/-- Modelled from the spec: `CYCLE_DURATION` is imported from `../constants`,
which is not part of the sources; the spec fixes one cycle at one simulated
24-hour period measured in minutes, i.e. 1440, the value the claims stipulate. -/
def CYCLE_DURATION : Rat := 1440

attribute [local semireducible] Rat.add Rat.mul Rat.sub Rat.inv Rat.ofScientific

/-- JavaScript `Math.round`: round half toward positive infinity. -/
def jsRound (q : Rat) : Int := ⌊q + 1/2⌋

instance : DecidableRel (fun a b : Keyframe => a.time ≤ b.time) :=
  fun a b => inferInstanceAs (Decidable (a.time ≤ b.time))

/-- `[...dayKeyframes].sort((a, b) => a.time - b.time)` (line 204): a stable
sort by ascending `time`. JavaScript's `Array.prototype.sort` is stable, and a
stable sort is extensionally unique, so insertion sort represents it exactly. -/
def sortKeyframes (kfs : List Keyframe) : List Keyframe :=
  kfs.insertionSort (fun a b => a.time ≤ b.time)

/-- `interpolateColor` (lines 224-232): per-channel linear interpolation with
JS rounding; `active` is a hard cut at factor 0.5. The null guard at its entry
is dead at its only call site (lines 235-237 default both cells), so both cells
are total here. -/
def interpolateColor (color1 color2 : Cell) (factor : Rat) : Cell :=
  { r := jsRound (color1.r + (color2.r - color1.r) * factor)
    g := jsRound (color1.g + (color2.g - color1.g) * factor)
    b := jsRound (color1.b + (color2.b - color1.b) * factor)
    active := if factor < 0.5 then color1.active else color2.active }

/-- The bracket-selection loop of `updateGridFromTimeline` (lines 208-216):
walk the sorted list; at index `i`, `current = sorted[i]` and
`next = sorted[i+1] || sorted[0]`; stop at the first `i` satisfying
`time >= current.time && (time < next.time || current.time >= next.time)`.
Returns `none` when no index satisfies the condition. -/
def scanBracket (time : Rat) (first : Keyframe) : List Keyframe → Option (Keyframe × Keyframe)
  | [] => none
  | [current] =>
      if time ≥ current.time ∧ (time < first.time ∨ current.time ≥ first.time) then
        some (current, first)
      else none
  | current :: next :: rest =>
      if time ≥ current.time ∧ (time < next.time ∨ current.time ≥ next.time) then
        some (current, next)
      else scanBracket time first (next :: rest)

/-- Placeholder keyframe; only used to express `headD`/`getLastD` of a list
that is provably nonempty wherever it matters. -/
def defaultKeyframe : Keyframe := ⟨0, 0, "", []⟩

/-- `updateGridFromTimeline` (lines 197-241), restricted to its pure value:
the grid it computes from a day's keyframe list, a query time and the current
grid size. Empty list: all-inactive-black grid. Otherwise: sort, select the
bracket (falling back to `(last, first)`), compute the wrap-corrected factor,
and interpolate each of the `gridSize * gridSize` cells, defaulting missing
cells to inactive black. -/
def sampleDay (dayKeyframes : List Keyframe) (time : Rat) (gridSize : Nat) : List Cell :=
  if dayKeyframes.isEmpty then
    List.replicate (gridSize * gridSize) blackCell
  else
    let sorted := sortKeyframes dayKeyframes
    let bracket := (scanBracket time (sorted.headD defaultKeyframe) sorted).getD
      (sorted.getLastD defaultKeyframe, sorted.headD defaultKeyframe)
    let prevKeyframe := bracket.1
    let nextKeyframe := bracket.2
    let timeDiff0 := nextKeyframe.time - prevKeyframe.time
    let timeDiff := if timeDiff0 < 0 then timeDiff0 + CYCLE_DURATION else timeDiff0
    let timeProgress0 := time - prevKeyframe.time
    let timeProgress := if timeProgress0 < 0 then timeProgress0 + CYCLE_DURATION else timeProgress0
    let factor := if timeDiff = 0 then 0 else timeProgress / timeDiff
    (List.range (gridSize * gridSize)).map fun index =>
      interpolateColor (prevKeyframe.grid.getD index blackCell)
        (nextKeyframe.grid.getD index blackCell) factor

/-- JavaScript `Uint8Array` element store conversion (ToUint8): value mod 256. -/
def toByte (x : Int) : Nat := (x % 256).toNat

/-- One colour channel of one cell as sent to the device (lines 370-373):
`Math.round((cell.active ? component : 0) * masterBrightness / 100)`. -/
def cellChannel (mb : Rat) (active : Bool) (v : Int) : Int :=
  jsRound ((if active then (v : Rat) else 0) * (mb / 100))

/-- The three wire bytes of one cell, in R,G,B order. -/
def encCell (mb : Rat) (c : Cell) : List Nat :=
  [toByte (cellChannel mb c.active c.r),
   toByte (cellChannel mb c.active c.g),
   toByte (cellChannel mb c.active c.b)]

/-- The write loop of `sendGridToArduino` (lines 368-377): for each cell of the
passed grid, store its three bytes at `i`, `i+1`, `i+2` and advance `i` by 3.
`List.set` is a no-op out of range, exactly like a `Uint8Array` store. -/
def writeCells (mb : Rat) : List Cell → Nat → List Nat → List Nat
  | [], _, buf => buf
  | c :: rest, i, buf =>
      writeCells mb rest (i + 3)
        (((buf.set i (toByte (cellChannel mb c.active c.r))).set (i + 1)
            (toByte (cellChannel mb c.active c.g))).set (i + 2)
          (toByte (cellChannel mb c.active c.b)))

/-- `sendGridToArduino` (lines 361-386), restricted to the frame it builds:
a zero-initialised buffer of `1 + 1 + gridSize*gridSize*3 + 1` bytes, with
`0xAB` at 0, the grid size at 1, the cell bytes from offset 2, and `0xBA`
written at the last index after the loop. -/
def sendGridToArduino (grid : List Cell) (masterBrightness : Rat) (gridSize : Nat) : List Nat :=
  let buf0 := List.replicate (1 + 1 + gridSize * gridSize * 3 + 1) 0
  let buf1 := (buf0.set 0 0xAB).set 1 (gridSize % 256)
  let buf2 := writeCells masterBrightness grid 2 buf1
  buf2.set (buf2.length - 1) 0xBA

/-- The grid-rebuild applied to one grid by the resize effect (line 424):
`Array.from({length: newSize}, (_, i) => kf.grid[i] || inactive black)`. -/
def resizeGridTo (newSize : Nat) (g : List Cell) : List Cell :=
  (List.range newSize).map fun i => g.getD i blackCell

/-- The resize effect (lines 419-427): on a grid-size change, every keyframe of
every day gets its grid rebuilt to the new `gridSize * gridSize` length. -/
def resizeKeyframesByDay (gridSize : Nat) (days : List (List Keyframe)) : List (List Keyframe) :=
  days.map fun dayKfs => dayKfs.map fun kf =>
    { kf with grid := resizeGridTo (gridSize * gridSize) kf.grid }

/-- `deleteKeyframe` (lines 560-573), restricted to the day's new keyframe
list: filter out the id, but only if more than one keyframe remains before
deletion; otherwise leave the list untouched. -/
def deleteKeyframe (dayKfs : List Keyframe) (idToDelete : Rat) : List Keyframe :=
  if dayKfs.length > 1 then dayKfs.filter (fun kf => kf.id ≠ idToDelete) else dayKfs

/-- The clamp in `updateKeyframeTime` (line 586):
`Math.max(0, Math.min(newTime, CYCLE_DURATION - 1))`. -/
def clampTime (newTime : Rat) : Rat := max 0 (min newTime (CYCLE_DURATION - 1))

/-- `updateKeyframeTime` (lines 583-593): clamp and update the matching
keyframe's time, then re-sort the whole list by time (the sort happens whether
or not any keyframe matched). -/
def updateKeyframeTime (dayKfs : List Keyframe) (id : Rat) (newTime : Rat) : List Keyframe :=
  sortKeyframes (dayKfs.map fun kf =>
    if kf.id = id then { kf with time := clampTime newTime } else kf)

/-- `updateKeyframeName` (lines 595-603): rename the matching keyframe. -/
def updateKeyframeName (dayKfs : List Keyframe) (id : Rat) (newName : String) : List Keyframe :=
  dayKfs.map fun kf => if kf.id = id then { kf with name := newName } else kf

/-- `handleTotalDaysChange` (lines 643-663), restricted to the new
`keyframesByDay` value: clamp the requested count to [1,14]; equal count is a
no-op; a larger count appends deep copies (value copies here) of the last day;
a smaller count truncates. -/
def handleTotalDaysChange (newDayCount : Int) (days : List (List Keyframe)) :
    List (List Keyframe) :=
  let clampedDayCount := max 1 (min 14 newDayCount)
  let currentDayCount : Int := days.length
  if clampedDayCount = currentDayCount then days
  else if clampedDayCount > currentDayCount then
    days ++ List.replicate (clampedDayCount - currentDayCount).toNat (days.getLastD [])
  else days.take clampedDayCount.toNat

/-- `currentGrid.filter(c => c.active)` (line 465). -/
def activeCells (grid : List Cell) : List Cell := grid.filter (fun c => c.active)

/-- Average of the red channel over active cells (lines 467-472). -/
def avgR (grid : List Cell) : Rat :=
  ((activeCells grid).map fun c => (c.r : Rat)).sum / ((activeCells grid).length : Rat)

/-- Average of the green channel over active cells (lines 467-473). -/
def avgG (grid : List Cell) : Rat :=
  ((activeCells grid).map fun c => (c.g : Rat)).sum / ((activeCells grid).length : Rat)

/-- Average of the blue channel over active cells (lines 467-474). -/
def avgB (grid : List Cell) : Rat :=
  ((activeCells grid).map fun c => (c.b : Rat)).sum / ((activeCells grid).length : Rat)

/-- The result of `liveAnalysis`: classification plus the channel averages. -/
structure Analysis where
  dominantSpectrum : String
  avgR : Rat
  avgG : Rat
  avgB : Rat
deriving DecidableEq

/-- `liveAnalysis` (lines 464-484): with no active cell, report "Off";
otherwise classify with ratio threshold 1.3 against each other channel, then
the near-white test `|avgR-avgG| < 25 && |avgR-avgB| < 25 && avgR > 200`,
else "Balanced". The JS literal `1.3` is modelled as the exact rational. -/
def liveAnalysis (grid : List Cell) : Analysis :=
  if (activeCells grid).length = 0 then ⟨"Off", 0, 0, 0⟩
  else
    ⟨if avgR grid > avgG grid * 1.3 ∧ avgR grid > avgB grid * 1.3 then "Red Dominant"
      else if avgG grid > avgR grid * 1.3 ∧ avgG grid > avgB grid * 1.3 then "Green Dominant"
      else if avgB grid > avgR grid * 1.3 ∧ avgB grid > avgG grid * 1.3 then "Blue Dominant"
      else if |avgR grid - avgG grid| < 25 ∧ |avgR grid - avgB grid| < 25 ∧ avgR grid > 200 then
        "Full Spectrum"
      else "Balanced",
     avgR grid, avgG grid, avgB grid⟩

/-- The all-black, all-inactive keyframe at time 0 of the spec's wraparound
test (spec 8), for an `n × n` grid. -/
def kfBlack (n : Nat) : Keyframe := ⟨1, 0, "Night", List.replicate (n * n) ⟨0, 0, 0, false⟩⟩

/-- The all-white, all-active keyframe at time 720 of the spec's wraparound
test (spec 8), for an `n × n` grid. -/
def kfWhite (n : Nat) : Keyframe := ⟨2, 720, "Midday", List.replicate (n * n) ⟨255, 255, 255, true⟩⟩

/-! ## Helper lemmas -/

instance : DecidableRel (fun a b : Keyframe => a.time < b.time) :=
  fun a b => inferInstanceAs (Decidable (a.time < b.time))

theorem jsRound_intCast (n : Int) : jsRound ((n : Rat)) = n := by
  rw [jsRound, Int.floor_int_add]
  norm_num

theorem interpolateColor_zero (c1 c2 : Cell) : interpolateColor c1 c2 0 = c1 := by
  have h : (0 : Rat) < 0.5 := by norm_num
  cases c1
  simp [interpolateColor, jsRound_intCast, h]

theorem map_range_getD (l : List Cell) : (List.range l.length).map (fun i => l.getD i blackCell) = l := by
  apply List.ext_getElem
  · simp
  · intro i h1 h2
    simp [List.getD_eq_getElem?_getD, List.getElem?_eq_getElem, h2]

theorem map_range_const {m : Nat} {F : Nat → Cell} {c : Cell} (h : ∀ i, i < m → F i = c) :
    (List.range m).map F = List.replicate m c := by
  apply List.ext_getElem
  · simp
  · intro i h1 h2
    simp only [List.getElem_map, List.getElem_range, List.getElem_replicate]
    exact h i (by simpa using h1)

theorem getD_replicate_lt {m i : Nat} (c : Cell) (h : i < m) :
    (List.replicate m c).getD i blackCell = c := by
  simp [List.getD_eq_getElem?_getD, List.getElem?_replicate, h]

/-! ## C7: deleting the sole keyframe of a day is a no-op -/

/-- C7: for every Day whose keyframe list has exactly one element, deleting any
keyframe id from it is a no-op: the list is unchanged and its count stays 1. -/
theorem delete_sole_keyframe_noop (dayKfs : List Keyframe) (id : Rat)
    (h : dayKfs.length = 1) :
    deleteKeyframe dayKfs id = dayKfs ∧ (deleteKeyframe dayKfs id).length = 1 := by
  have hn : ¬ dayKfs.length > 1 := by omega
  refine ⟨by simp [deleteKeyframe, hn], ?_⟩
  simp [deleteKeyframe, hn, h]

/-- Witness for C7 at a concrete one-keyframe day, deleting its own id. -/
theorem delete_sole_keyframe_noop_witness :
    ([(⟨1, 0, "Scene 1", []⟩ : Keyframe)].length = 1) ∧
    (deleteKeyframe [⟨1, 0, "Scene 1", []⟩] 1 = [⟨1, 0, "Scene 1", []⟩] ∧
      (deleteKeyframe [⟨1, 0, "Scene 1", []⟩] 1).length = 1) :=
  ⟨rfl, delete_sole_keyframe_noop [⟨1, 0, "Scene 1", []⟩] 1 rfl⟩

/-! ## C6: setting the total day count -/

theorem handleTotalDaysChange_eq (n : Int) (days : List (List Keyframe)) :
    handleTotalDaysChange n days =
      if (max 1 (min 14 n)).toNat ≤ days.length then days.take (max 1 (min 14 n)).toNat
      else days ++
        List.replicate ((max 1 (min 14 n)).toNat - days.length) (days.getLastD []) := by
  simp only [handleTotalDaysChange]
  by_cases h1 : max 1 (min 14 n) = (days.length : Int)
  · have h2 : (max 1 (min 14 n)).toNat = days.length := by omega
    rw [if_pos h1, if_pos (by omega), h2, List.take_length]
  · rw [if_neg h1]
    by_cases h3 : max 1 (min 14 n) > (days.length : Int)
    · have h4 : (max 1 (min 14 n) - (days.length : Int)).toNat =
          (max 1 (min 14 n)).toNat - days.length := by omega
      rw [if_pos h3, if_neg (by omega), h4]
    · rw [if_neg h3, if_pos (by omega)]

/-- C6: `setTotalDays` clamps the requested count to [1,14]; the resulting
schedule always has exactly the clamped number of days; when the clamped count
is at most the current count the schedule is truncated to its prefix, otherwise
it grows by appending copies of the last day; in particular going from 3 days
to 5 appends two copies of day index 2, and updating one of the two appended
days leaves the other still equal to the original day 2 (structural
independence of the copies, in this value model). -/
theorem total_days_change_spec (n : Int) (days : List (List Keyframe))
    (d3 : List (List Keyframe)) (h3 : d3.length = 3) :
    (handleTotalDaysChange n days).length = (max 1 (min 14 n)).toNat ∧
    ((max 1 (min 14 n)).toNat ≤ days.length →
      handleTotalDaysChange n days = days.take (max 1 (min 14 n)).toNat) ∧
    (days.length < (max 1 (min 14 n)).toNat →
      handleTotalDaysChange n days =
        days ++ List.replicate ((max 1 (min 14 n)).toNat - days.length) (days.getLastD [])) ∧
    handleTotalDaysChange 5 d3 = d3 ++ [d3.getD 2 [], d3.getD 2 []] ∧
    (∀ x : List Keyframe,
      ((handleTotalDaysChange 5 d3).set 3 x).getD 4 [] = d3.getD 2 [] ∧
      ((handleTotalDaysChange 5 d3).set 4 x).getD 3 [] = d3.getD 2 []) := by
  have key := handleTotalDaysChange_eq n days
  have hcon : handleTotalDaysChange 5 d3 = d3 ++ [d3.getD 2 [], d3.getD 2 []] := by
    rcases d3 with _ | ⟨a, _ | ⟨b, _ | ⟨c, _ | ⟨e, t⟩⟩⟩⟩ <;> simp_all
    all_goals rfl
  refine ⟨?_, ?_, ?_, hcon, ?_⟩
  · rw [key]
    split
    · simp
      omega
    · simp
      omega
  · intro h
    rw [key, if_pos h]
  · intro h
    rw [key, if_neg (by omega)]
  · intro x
    rcases d3 with _ | ⟨a, _ | ⟨b, _ | ⟨c, _ | ⟨e, t⟩⟩⟩⟩ <;> simp_all

/-- Witness for C6 at a concrete 3-day schedule grown to 5 days. -/
theorem total_days_change_spec_witness :
    ([[(⟨7, 0, "A", []⟩ : Keyframe)], [⟨8, 0, "B", []⟩], [⟨9, 0, "C", []⟩]].length = 3) ∧
    ((handleTotalDaysChange 5 [[(⟨7, 0, "A", []⟩ : Keyframe)], [⟨8, 0, "B", []⟩],
        [⟨9, 0, "C", []⟩]]).length = (max 1 (min 14 (5 : Int))).toNat ∧
      handleTotalDaysChange 5 [[(⟨7, 0, "A", []⟩ : Keyframe)], [⟨8, 0, "B", []⟩],
          [⟨9, 0, "C", []⟩]] =
        [[(⟨7, 0, "A", []⟩ : Keyframe)], [⟨8, 0, "B", []⟩], [⟨9, 0, "C", []⟩]] ++
          [[(⟨9, 0, "C", []⟩ : Keyframe)], [⟨9, 0, "C", []⟩]]) :=
  ⟨rfl,
    ⟨(total_days_change_spec 5 [[⟨7, 0, "A", []⟩], [⟨8, 0, "B", []⟩], [⟨9, 0, "C", []⟩]]
        [[⟨7, 0, "A", []⟩], [⟨8, 0, "B", []⟩], [⟨9, 0, "C", []⟩]] rfl).1,
      (total_days_change_spec 5 [[⟨7, 0, "A", []⟩], [⟨8, 0, "B", []⟩], [⟨9, 0, "C", []⟩]]
        [[⟨7, 0, "A", []⟩], [⟨8, 0, "B", []⟩], [⟨9, 0, "C", []⟩]] rfl).2.2.2.1⟩⟩

/-! ## C5: grid resize 8 -> 4 -> 8 round trip -/

theorem resizeGridTo_length (m : Nat) (g : List Cell) : (resizeGridTo m g).length = m := by
  simp [resizeGridTo]

theorem resizeGridTo_getD (m : Nat) (g : List Cell) (i : Nat) (d : Cell) :
    (resizeGridTo m g).getD i d = if i < m then g.getD i blackCell else d := by
  simp only [resizeGridTo, List.getD_eq_getElem?_getD, List.getElem?_map]
  by_cases h : i < m
  · simp [List.getElem?_range, h]
  · rw [List.getElem?_eq_none (by simpa using Nat.le_of_not_lt h)]
    simp [h]

theorem resizeGridTo_roundtrip (g : List Cell) (h : g.length = 64) :
    resizeGridTo 64 (resizeGridTo 16 g) = g.take 16 ++ List.replicate 48 blackCell := by
  apply List.ext_getElem
  · simp [resizeGridTo_length, h]
  · intro i h1 h2
    have hi : i < 64 := by simpa [resizeGridTo_length] using h1
    have hL : (resizeGridTo 64 (resizeGridTo 16 g))[i] =
        (resizeGridTo 16 g).getD i blackCell := by
      simp [resizeGridTo, List.getD_eq_getElem?_getD]
    rw [hL, resizeGridTo_getD]
    by_cases h16 : i < 16
    · rw [if_pos h16, List.getElem_append_left (by simp [h]; omega)]
      simp [List.getD_eq_getElem?_getD, List.getElem?_take, h16,
        List.getElem?_eq_getElem (show i < g.length by omega)]
    · rw [if_neg h16, List.getElem_append_right (by simp [h]; omega),
        List.getElem_replicate]

/-- C5: resizing the grid dimension from 8 down to 4 and back up to 8 turns
every keyframe grid (of original length 64) into `take 16` of the original
followed by 48 inactive black cells: indices 0-15 keep their original cells and
indices 16-63 are inactive black, with no stale data. -/
theorem resize_8_4_8_roundtrip (days : List (List Keyframe))
    (h : ∀ day ∈ days, ∀ kf ∈ day, kf.grid.length = 64) :
    resizeKeyframesByDay 8 (resizeKeyframesByDay 4 days) =
      days.map (List.map fun kf =>
        { kf with grid := kf.grid.take 16 ++ List.replicate 48 blackCell }) := by
  simp only [resizeKeyframesByDay, List.map_map]
  apply List.map_congr_left
  intro day hday
  simp only [Function.comp, List.map_map]
  apply List.map_congr_left
  intro kf hkf
  have h64 : kf.grid.length = 64 := h day hday kf hkf
  have : (4 * 4 : Nat) = 16 := by norm_num
  rw [this]
  have : (8 * 8 : Nat) = 64 := by norm_num
  rw [this]
  simp [resizeGridTo_roundtrip kf.grid h64]

/-- Witness for C5 at a one-day, one-keyframe schedule with a 64-cell grid. -/
theorem resize_8_4_8_roundtrip_witness :
    (∀ day ∈ [[(⟨1, 0, "Full", List.replicate 64 ⟨9, 8, 7, true⟩⟩ : Keyframe)]],
      ∀ kf ∈ day, kf.grid.length = 64) ∧
    resizeKeyframesByDay 8 (resizeKeyframesByDay 4
        [[(⟨1, 0, "Full", List.replicate 64 ⟨9, 8, 7, true⟩⟩ : Keyframe)]]) =
      [[(⟨1, 0, "Full", List.replicate 64 ⟨9, 8, 7, true⟩⟩ : Keyframe)]].map
        (List.map fun kf =>
          { kf with grid := kf.grid.take 16 ++ List.replicate 48 blackCell }) :=
  ⟨by decide,
    resize_8_4_8_roundtrip [[⟨1, 0, "Full", List.replicate 64 ⟨9, 8, 7, true⟩⟩]] (by decide)⟩

/-! ## C8: operations on a nonexistent keyframe id -/

theorem map_eq_self_of_mem {f : Keyframe → Keyframe} {l : List Keyframe}
    (h : ∀ a ∈ l, f a = a) : l.map f = l := by
  rw [List.map_congr_left h]
  simp

/-- C8 counterexample: on a day list that is not time-sorted (reachable, e.g. a
loaded recipe is taken as-is), `updateKeyframeTime` with an id that occurs
nowhere still re-sorts the list, so the list changes: the claim that all three
id-keyed operations leave the list unchanged fails for `updateKeyframeTime`. -/
theorem missing_id_noop_counterexample :
    (∀ kf ∈ [(⟨1, 200, "Evening", []⟩ : Keyframe), ⟨2, 100, "Morning", []⟩],
      kf.id ≠ (999 : Rat)) ∧
    updateKeyframeTime [⟨1, 200, "Evening", []⟩, ⟨2, 100, "Morning", []⟩] 999 300 =
      [⟨2, 100, "Morning", []⟩, ⟨1, 200, "Evening", []⟩] ∧
    updateKeyframeTime [⟨1, 200, "Evening", []⟩, ⟨2, 100, "Morning", []⟩] 999 300 ≠
      [⟨1, 200, "Evening", []⟩, ⟨2, 100, "Morning", []⟩] := by
  refine ⟨by decide, by decide, by decide⟩

/-- C8 (amended): with an id that occurs nowhere in the day's list,
`deleteKeyframe` and `updateKeyframeName` are exact no-ops; `updateKeyframeTime`
changes no keyframe but unconditionally re-sorts the list stably by time, so it
equals the stable sort of the list, and is an exact no-op exactly when the list
was already sorted by time. No operation crashes or corrupts a keyframe. -/
theorem missing_id_noop (dayKfs : List Keyframe) (id : Rat) (t : Rat) (nm : String)
    (h : ∀ kf ∈ dayKfs, kf.id ≠ id) :
    deleteKeyframe dayKfs id = dayKfs ∧
    updateKeyframeName dayKfs id nm = dayKfs ∧
    updateKeyframeTime dayKfs id t = sortKeyframes dayKfs ∧
    (List.Sorted (fun a b : Keyframe => a.time ≤ b.time) dayKfs →
      updateKeyframeTime dayKfs id t = dayKfs) := by
  have hmap : ∀ f : Keyframe → Keyframe,
      (dayKfs.map fun kf => if kf.id = id then f kf else kf) = dayKfs := by
    intro f
    apply map_eq_self_of_mem
    intro a ha
    rw [if_neg (h a ha)]
  have hfil : dayKfs.filter (fun kf => kf.id ≠ id) = dayKfs := by
    rw [List.filter_eq_self]
    intro a ha
    simpa using h a ha
  refine ⟨?_, hmap _, ?_, ?_⟩
  · rw [deleteKeyframe, hfil, ite_self]
  · rw [updateKeyframeTime, hmap _]
  · intro hs
    rw [updateKeyframeTime, hmap _]
    exact hs.insertionSort_eq

/-- Witness for C8 (amended) on a concrete sorted two-keyframe day and an
absent id. -/
theorem missing_id_noop_witness :
    (∀ kf ∈ [(⟨1, 100, "Morning", []⟩ : Keyframe), ⟨2, 200, "Evening", []⟩],
      kf.id ≠ (999 : Rat)) ∧
    (deleteKeyframe [⟨1, 100, "Morning", []⟩, ⟨2, 200, "Evening", []⟩] 999 =
        [⟨1, 100, "Morning", []⟩, ⟨2, 200, "Evening", []⟩] ∧
      updateKeyframeName [⟨1, 100, "Morning", []⟩, ⟨2, 200, "Evening", []⟩] 999 "X" =
        [⟨1, 100, "Morning", []⟩, ⟨2, 200, "Evening", []⟩] ∧
      updateKeyframeTime [⟨1, 100, "Morning", []⟩, ⟨2, 200, "Evening", []⟩] 999 300 =
        sortKeyframes [⟨1, 100, "Morning", []⟩, ⟨2, 200, "Evening", []⟩] ∧
      (List.Sorted (fun a b : Keyframe => a.time ≤ b.time)
          [⟨1, 100, "Morning", []⟩, ⟨2, 200, "Evening", []⟩] →
        updateKeyframeTime [⟨1, 100, "Morning", []⟩, ⟨2, 200, "Evening", []⟩] 999 300 =
          [⟨1, 100, "Morning", []⟩, ⟨2, 200, "Evening", []⟩])) :=
  ⟨by decide,
    missing_id_noop [⟨1, 100, "Morning", []⟩, ⟨2, 200, "Evening", []⟩] 999 300 "X" (by decide)⟩

/-! ## C1 and C3: wraparound interpolation and the active-flag hard cut -/

theorem sort_black_white (n : Nat) :
    sortKeyframes [kfBlack n, kfWhite n] = [kfBlack n, kfWhite n] := by
  norm_num [sortKeyframes, List.insertionSort, List.orderedInsert, kfBlack, kfWhite]

theorem scan_1080 (n : Nat) :
    scanBracket 1080 (kfBlack n) [kfBlack n, kfWhite n] = some (kfWhite n, kfBlack n) := by
  norm_num [scanBracket, kfBlack, kfWhite]

theorem scan_360 (n : Nat) :
    scanBracket 360 (kfBlack n) [kfBlack n, kfWhite n] = some (kfBlack n, kfWhite n) := by
  norm_num [scanBracket, kfBlack, kfWhite]

theorem interp_white_black_half :
    interpolateColor ⟨255, 255, 255, true⟩ ⟨0, 0, 0, false⟩ (1/2) = ⟨128, 128, 128, false⟩ := by
  norm_num [interpolateColor, jsRound]

theorem interp_black_white_half :
    interpolateColor ⟨0, 0, 0, false⟩ ⟨255, 255, 255, true⟩ (1/2) = ⟨128, 128, 128, true⟩ := by
  norm_num [interpolateColor, jsRound]

/-- C1: with a day of two keyframes, all-black inactive at time 0 and all-white
active at time 720, and CYCLE_DURATION = 1440, sampling at t = 1080 selects the
bracket (prev = the keyframe at 720, next = the keyframe at 0), computes the
cyclic duration 720 by adding CYCLE_DURATION to the negative difference, uses
interpolation factor 0.5, and yields every cell with
r = g = b = round(255 + (0 - 255) * 0.5) = 128: cyclic wraparound interpolation,
not clamping to the last keyframe. -/
theorem wraparound_interpolation (n : Nat) :
    scanBracket 1080 (kfBlack n) (sortKeyframes [kfBlack n, kfWhite n]) =
      some (kfWhite n, kfBlack n) ∧
    (kfBlack n).time - (kfWhite n).time < 0 ∧
    (kfBlack n).time - (kfWhite n).time + CYCLE_DURATION = 720 ∧
    (1080 - (kfWhite n).time) / ((kfBlack n).time - (kfWhite n).time + CYCLE_DURATION) = 1/2 ∧
    jsRound (255 + (0 - 255) * (1/2)) = 128 ∧
    sampleDay [kfBlack n, kfWhite n] 1080 n = List.replicate (n * n) ⟨128, 128, 128, false⟩ := by
  refine ⟨by rw [sort_black_white n]; exact scan_1080 n,
    by norm_num [kfBlack, kfWhite],
    by norm_num [kfBlack, kfWhite, CYCLE_DURATION],
    by norm_num [kfBlack, kfWhite, CYCLE_DURATION],
    by norm_num [jsRound],
    ?_⟩
  simp only [sampleDay, List.isEmpty_cons, Bool.false_eq_true, if_false, sort_black_white n,
    List.headD_cons, scan_1080 n, Option.getD_some]
  norm_num [kfBlack, kfWhite, CYCLE_DURATION]
  apply map_range_const
  intro i hi
  simp only [List.getElem?_replicate_of_lt hi, Option.getD_some]
  exact interp_white_black_half

/-- C3: the sampler's output active flag is never a blend: `interpolateColor`
takes prev's flag when the factor is strictly below 0.5 and next's flag at 0.5
or above; concretely, with the black-inactive keyframe at 0 and white-active
keyframe at 720, sampling at t = 360 (factor exactly 0.5) takes the active flag
from the second keyframe (true) while colours are 50% blends. -/
theorem active_flag_hard_cut (n : Nat) :
    (∀ c1 c2 : Cell, ∀ factor : Rat,
      (interpolateColor c1 c2 factor).active =
        if factor < 0.5 then c1.active else c2.active) ∧
    scanBracket 360 (kfBlack n) (sortKeyframes [kfBlack n, kfWhite n]) =
      some (kfBlack n, kfWhite n) ∧
    sampleDay [kfBlack n, kfWhite n] 360 n = List.replicate (n * n) ⟨128, 128, 128, true⟩ := by
  refine ⟨fun c1 c2 factor => rfl,
    by rw [sort_black_white n]; exact scan_360 n, ?_⟩
  simp only [sampleDay, List.isEmpty_cons, Bool.false_eq_true, if_false, sort_black_white n,
    List.headD_cons, scan_360 n, Option.getD_some]
  norm_num [kfBlack, kfWhite, CYCLE_DURATION]
  apply map_range_const
  intro i hi
  simp only [List.getElem?_replicate_of_lt hi, Option.getD_some]
  exact interp_black_white_half

/-! ## C2: sampling at a keyframe timestamp -/

theorem scanBracket_at_keyframe (t : Rat) (first : Keyframe) :
    ∀ (pre : List Keyframe) (k : Keyframe) (post : List Keyframe),
      t = k.time →
      List.Pairwise (fun a b : Keyframe => a.time < b.time) (pre ++ [k]) →
      ∃ nx, scanBracket t first (pre ++ k :: post) = some (k, nx) := by
  intro pre
  induction pre with
  | nil =>
    intro k post ht _
    subst ht
    cases post with
    | nil =>
      refine ⟨first, ?_⟩
      simp only [List.nil_append, scanBracket]
      rw [if_pos ⟨le_refl _, lt_or_ge k.time first.time⟩]
    | cons nx rest =>
      refine ⟨nx, ?_⟩
      simp only [List.nil_append, scanBracket]
      rw [if_pos ⟨le_refl _, lt_or_ge k.time nx.time⟩]
  | cons p pre ih =>
    intro k post ht hpw
    obtain ⟨hp, hpw2⟩ := List.pairwise_cons.mp hpw
    cases pre with
    | nil =>
      have hpk : p.time < k.time := hp k (by simp)
      have hcond : ¬(t ≥ p.time ∧ (t < k.time ∨ p.time ≥ k.time)) := by
        subst ht
        push_neg
        intro _
        exact ⟨le_refl _, hpk⟩
      simp only [List.cons_append, List.nil_append, scanBracket]
      rw [if_neg hcond]
      exact ih k post ht hpw2
    | cons q pre2 =>
      have hpq : p.time < q.time := hp q (by simp)
      have hqk : q.time < k.time := by
        obtain ⟨hq, _⟩ := List.pairwise_cons.mp hpw2
        exact hq k (by simp)
      have hcond : ¬(t ≥ p.time ∧ (t < q.time ∨ p.time ≥ q.time)) := by
        subst ht
        push_neg
        intro _
        exact ⟨le_of_lt hqk, hpq⟩
      simp only [List.cons_append, scanBracket]
      rw [if_neg hcond]
      exact ih k post ht hpw2

/-- C2 counterexample: the claim fails when two keyframes that share an earlier
timestamp precede k in the sorted order. With keyframes at times 100, 100 and
720, the keyframe k at 720 is the only one with its timestamp (so no keyframe
with the same time precedes it), its grid has length 1x1, the sort leaves the
list as is; yet sampling at t = 720 stops the bracket scan at the first pair of
equal-time keyframes (current.time >= next.time holds there), giving factor 0
against the keyframe at time 100, so the output is that keyframe's grid, not
k's. -/
theorem exact_match_counterexample :
    ((⟨3, 720, "Peak", [⟨255, 255, 255, true⟩]⟩ : Keyframe).grid.length = 1 * 1) ∧
    (∀ kf ∈ [(⟨1, 100, "A", [⟨10, 20, 30, true⟩]⟩ : Keyframe),
        ⟨2, 100, "B", [⟨40, 50, 60, true⟩]⟩, ⟨3, 720, "Peak", [⟨255, 255, 255, true⟩]⟩],
      kf.time = 720 → kf = ⟨3, 720, "Peak", [⟨255, 255, 255, true⟩]⟩) ∧
    sortKeyframes [⟨1, 100, "A", [⟨10, 20, 30, true⟩]⟩, ⟨2, 100, "B", [⟨40, 50, 60, true⟩]⟩,
        ⟨3, 720, "Peak", [⟨255, 255, 255, true⟩]⟩] =
      [⟨1, 100, "A", [⟨10, 20, 30, true⟩]⟩, ⟨2, 100, "B", [⟨40, 50, 60, true⟩]⟩,
        ⟨3, 720, "Peak", [⟨255, 255, 255, true⟩]⟩] ∧
    sampleDay [⟨1, 100, "A", [⟨10, 20, 30, true⟩]⟩, ⟨2, 100, "B", [⟨40, 50, 60, true⟩]⟩,
        ⟨3, 720, "Peak", [⟨255, 255, 255, true⟩]⟩] 720 1 = [⟨10, 20, 30, true⟩] ∧
    sampleDay [⟨1, 100, "A", [⟨10, 20, 30, true⟩]⟩, ⟨2, 100, "B", [⟨40, 50, 60, true⟩]⟩,
        ⟨3, 720, "Peak", [⟨255, 255, 255, true⟩]⟩] 720 1 ≠
      (⟨3, 720, "Peak", [⟨255, 255, 255, true⟩]⟩ : Keyframe).grid := by
  refine ⟨by decide, by decide, by decide, by decide, by decide⟩

/-- C2 (amended): for every keyframe k of a Day whose grid has length
gridSize^2, if all keyframes strictly preceding k in the stable time-sorted
order have pairwise distinct times, all smaller than k's (no duplicated
timestamp occurs anywhere before k, not merely at k's own time), then sampling
at exactly t = k.time yields k.grid cell for cell: the interpolation factor is
0 at the keyframe's own timestamp, rounding leaves each integer component
unchanged, and the active flag is taken from k. -/
theorem exact_match (kfs : List Keyframe) (k : Keyframe) (pre post : List Keyframe) (n : Nat)
    (hsort : sortKeyframes kfs = pre ++ k :: post)
    (hpw : List.Pairwise (fun a b : Keyframe => a.time < b.time) (pre ++ [k]))
    (hlen : k.grid.length = n * n) :
    sampleDay kfs k.time n = k.grid := by
  obtain ⟨nx, hscan⟩ := scanBracket_at_keyframe k.time
    ((pre ++ k :: post).headD defaultKeyframe) pre k post rfl hpw
  rcases kfs with _ | ⟨a, rest⟩
  · simp [sortKeyframes, List.insertionSort] at hsort
  simp only [sampleDay, List.isEmpty_cons, Bool.false_eq_true, if_false, hsort, hscan,
    Option.getD_some]
  simp only [sub_self, lt_self_iff_false, if_false, zero_div, ite_self]
  simp only [interpolateColor_zero]
  rw [← hlen]
  exact map_range_getD k.grid

/-- Witness for C2 (amended): a two-keyframe day sampled exactly at the second
keyframe's timestamp reproduces its grid. -/
theorem exact_match_witness :
    (sortKeyframes [(⟨1, 0, "Dawn", [⟨10, 20, 30, false⟩]⟩ : Keyframe),
        ⟨2, 720, "Noon", [⟨255, 200, 150, true⟩]⟩] =
      [(⟨1, 0, "Dawn", [⟨10, 20, 30, false⟩]⟩ : Keyframe)] ++
        (⟨2, 720, "Noon", [⟨255, 200, 150, true⟩]⟩ : Keyframe) :: []) ∧
    List.Pairwise (fun a b : Keyframe => a.time < b.time)
      ([(⟨1, 0, "Dawn", [⟨10, 20, 30, false⟩]⟩ : Keyframe)] ++
        [(⟨2, 720, "Noon", [⟨255, 200, 150, true⟩]⟩ : Keyframe)]) ∧
    ((⟨2, 720, "Noon", [⟨255, 200, 150, true⟩]⟩ : Keyframe).grid.length = 1 * 1) ∧
    sampleDay [(⟨1, 0, "Dawn", [⟨10, 20, 30, false⟩]⟩ : Keyframe),
        ⟨2, 720, "Noon", [⟨255, 200, 150, true⟩]⟩]
      (⟨2, 720, "Noon", [⟨255, 200, 150, true⟩]⟩ : Keyframe).time 1 =
      (⟨2, 720, "Noon", [⟨255, 200, 150, true⟩]⟩ : Keyframe).grid :=
  ⟨by decide, by decide, by decide,
    exact_match [⟨1, 0, "Dawn", [⟨10, 20, 30, false⟩]⟩, ⟨2, 720, "Noon", [⟨255, 200, 150, true⟩]⟩]
      ⟨2, 720, "Noon", [⟨255, 200, 150, true⟩]⟩ [⟨1, 0, "Dawn", [⟨10, 20, 30, false⟩]⟩] [] 1
      (by decide) (by decide) (by decide)⟩

/-! ## C4 and C10: the device frame encoder -/

theorem writeCells_length (mb : Rat) :
    ∀ (cells : List Cell) (i : Nat) (buf : List Nat),
      (writeCells mb cells i buf).length = buf.length := by
  intro cells
  induction cells with
  | nil => intro i buf; rfl
  | cons c rest ih =>
    intro i buf
    simp only [writeCells, ih, List.length_set]

theorem flatMap_encCell_length (mb : Rat) (l : List Cell) :
    (l.flatMap (encCell mb)).length = 3 * l.length := by
  induction l with
  | nil => rfl
  | cons c rest ih =>
    simp only [List.flatMap_cons, List.length_append, List.length_cons, ih, encCell,
      List.length_nil]
    omega

theorem flatMap_congr_mem {l : List Cell} {f f2 : Cell → List Nat}
    (h : ∀ a ∈ l, f a = f2 a) : l.flatMap f = l.flatMap f2 := by
  induction l with
  | nil => rfl
  | cons a t ih => simp_all

theorem set3_append (buf1 : List Nat) (b0 b1 b2 : Nat) (buf3 : List Nat) (x y z : Nat) :
    (((buf1 ++ b0 :: b1 :: b2 :: buf3).set buf1.length x).set (buf1.length + 1) y).set
      (buf1.length + 2) z = buf1 ++ x :: y :: z :: buf3 := by
  have h0 : (buf1 ++ b0 :: b1 :: b2 :: buf3).set buf1.length x =
      buf1 ++ x :: b1 :: b2 :: buf3 := by
    rw [List.set_append_right _ _ (le_refl _), Nat.sub_self]
    rfl
  have h1 : (buf1 ++ x :: b1 :: b2 :: buf3).set (buf1.length + 1) y =
      buf1 ++ x :: y :: b2 :: buf3 := by
    rw [List.set_append_right _ _ (by omega)]
    have he : buf1.length + 1 - buf1.length = 1 := by omega
    rw [he]
    rfl
  have h2 : (buf1 ++ x :: y :: b2 :: buf3).set (buf1.length + 2) z =
      buf1 ++ x :: y :: z :: buf3 := by
    rw [List.set_append_right _ _ (by omega)]
    have he : buf1.length + 2 - buf1.length = 2 := by omega
    rw [he]
    rfl
  rw [h0, h1, h2]


theorem writeCells_fill (mb : Rat) :
    ∀ (cells : List Cell) (buf1 buf2 : List Nat), 3 * cells.length ≤ buf2.length →
      writeCells mb cells buf1.length (buf1 ++ buf2) =
        buf1 ++ cells.flatMap (encCell mb) ++ buf2.drop (3 * cells.length) := by
  intro cells
  induction cells with
  | nil =>
    intro buf1 buf2 h
    simp [writeCells]
  | cons c rest ih =>
    intro buf1 buf2 h
    rcases buf2 with _ | ⟨b0, _ | ⟨b1, _ | ⟨b2, buf3⟩⟩⟩
    · simp at h
    · simp at h; omega
    · simp at h; omega
    · simp only [writeCells, set3_append]
      have hjoin : buf1 ++ (toByte (cellChannel mb c.active c.r)) ::
          (toByte (cellChannel mb c.active c.g)) ::
          (toByte (cellChannel mb c.active c.b)) :: buf3 =
          (buf1 ++ [toByte (cellChannel mb c.active c.r),
            toByte (cellChannel mb c.active c.g),
            toByte (cellChannel mb c.active c.b)]) ++ buf3 := by
        simp
      have hidx : buf1.length + 3 = (buf1 ++ [toByte (cellChannel mb c.active c.r),
          toByte (cellChannel mb c.active c.g),
          toByte (cellChannel mb c.active c.b)]).length := by
        simp
      rw [hjoin, hidx, ih _ buf3 (by simp_all; omega)]
      simp only [encCell, List.flatMap_cons, List.length_cons]
      have hdrop : 3 * (rest.length + 1) = 3 * rest.length + 3 := by ring
      rw [hdrop]
      simp [List.append_assoc, List.drop_succ_cons]

theorem writeCells_oob (mb : Rat) :
    ∀ (cells : List Cell) (i : Nat) (buf : List Nat), buf.length ≤ i →
      writeCells mb cells i buf = buf := by
  intro cells
  induction cells with
  | nil => intro i buf h; rfl
  | cons c rest ih =>
    intro i buf h
    simp only [writeCells]
    rw [List.set_eq_of_length_le (show buf.length ≤ i from h),
      List.set_eq_of_length_le (show buf.length ≤ i + 1 by omega),
      List.set_eq_of_length_le (show buf.length ≤ i + 2 by omega)]
    exact ih _ _ (by omega)

theorem writeCells_append (mb : Rat) :
    ∀ (c1 c2 : List Cell) (i : Nat) (buf : List Nat),
      writeCells mb (c1 ++ c2) i buf =
        writeCells mb c2 (i + 3 * c1.length) (writeCells mb c1 i buf) := by
  intro c1
  induction c1 with
  | nil => intro c2 i buf; simp [writeCells]
  | cons c rest ih =>
    intro c2 i buf
    simp only [List.cons_append, writeCells, List.length_cons, List.append_eq]
    rw [ih]
    have he : i + 3 + 3 * rest.length = i + 3 * (rest.length + 1) := by ring
    rw [he]

theorem set_replicate_last (m : Nat) (v : Nat) :
    (List.replicate (m + 1) (0 : Nat)).set m v = List.replicate m 0 ++ [v] := by
  induction m with
  | zero => rfl
  | succ k ih =>
    rw [List.replicate_succ, List.set_cons_succ, ih]
    rfl

theorem encCell_black (mb : Rat) : encCell mb blackCell = [0, 0, 0] := by
  have h : jsRound (0 : Rat) = 0 := by norm_num [jsRound]
  simp [encCell, blackCell, cellChannel, toByte, h]

theorem flat_replicate_black (mb : Rat) (m : Nat) :
    (List.replicate m blackCell).flatMap (encCell mb) = List.replicate (3 * m) (0 : Nat) := by
  induction m with
  | zero => rfl
  | succ k ih =>
    have he : 3 * (k + 1) = 3 + 3 * k := by ring
    rw [List.replicate_succ, List.flatMap_cons, encCell_black, ih, he, List.replicate_add]
    rfl

theorem sendGrid_eq (grid : List Cell) (mb : Rat) (g : Nat) :
    sendGridToArduino grid mb g =
      [0xAB, g % 256] ++
        ((grid.take (g * g) ++ List.replicate (g * g - grid.length) blackCell).flatMap
          (encCell mb)) ++ [0xBA] := by
  have hbuf : ((List.replicate (1 + 1 + g * g * 3 + 1) (0 : Nat)).set 0 0xAB).set 1 (g % 256) =
      [0xAB, g % 256] ++ List.replicate (g * g * 3 + 1) 0 := by
    have he : 1 + 1 + g * g * 3 + 1 = g * g * 3 + 1 + 1 + 1 := by ring
    rw [he, List.replicate_succ, List.replicate_succ]
    rfl
  by_cases hle : grid.length ≤ g * g
  · -- the grid fits (including the exact-length case)
    simp only [sendGridToArduino, hbuf]
    rw [show (2 : Nat) = ([0xAB, g % 256] : List Nat).length from rfl,
      writeCells_fill mb grid _ _ (by simp; omega)]
    rw [List.drop_replicate]
    have hm : g * g * 3 + 1 - 3 * grid.length = 3 * (g * g - grid.length) + 1 := by omega
    rw [hm]
    have hpack : ([0xAB, g % 256] : List Nat) ++ grid.flatMap (encCell mb) ++
        List.replicate (3 * (g * g - grid.length) + 1) 0 =
        ([0xAB, g % 256] ++ grid.flatMap (encCell mb)) ++
          List.replicate (3 * (g * g - grid.length) + 1) 0 := by
      simp [List.append_assoc]
    rw [hpack]
    have hidx : ((([0xAB, g % 256] : List Nat) ++ grid.flatMap (encCell mb)) ++
        List.replicate (3 * (g * g - grid.length) + 1) 0).length - 1 =
        (([0xAB, g % 256] : List Nat) ++ grid.flatMap (encCell mb)).length +
          3 * (g * g - grid.length) := by
      simp only [List.length_append, flatMap_encCell_length, List.length_replicate,
        List.length_cons, List.length_nil]
      omega
    rw [hidx, List.set_append_right _ _ (Nat.le_add_right _ _), Nat.add_sub_cancel_left,
      set_replicate_last]
    rw [List.take_of_length_le hle, List.flatMap_append, flat_replicate_black]
    simp [List.append_assoc]
  · -- the grid is longer than the frame has room for
    push_neg at hle
    simp only [sendGridToArduino, hbuf]
    have hinner : writeCells mb (grid.take (g * g)) 2
        ([0xAB, g % 256] ++ List.replicate (g * g * 3 + 1) 0) =
        [0xAB, g % 256] ++ (grid.take (g * g)).flatMap (encCell mb) ++ [0] := by
      rw [show (2 : Nat) = ([0xAB, g % 256] : List Nat).length from rfl,
        writeCells_fill mb _ _ _ (by simp [List.length_take]; omega)]
      have hlt : (grid.take (g * g)).length = g * g := by
        simp [List.length_take]
        omega
      rw [hlt, List.drop_replicate]
      have he : g * g * 3 + 1 - 3 * (g * g) = 1 := by omega
      rw [he]
      rfl
    have houter : writeCells mb grid 2 ([0xAB, g % 256] ++ List.replicate (g * g * 3 + 1) 0) =
        writeCells mb (grid.drop (g * g)) (2 + 3 * (g * g))
          ([0xAB, g % 256] ++ (grid.take (g * g)).flatMap (encCell mb) ++ [0]) := by
      conv_lhs => rw [← List.take_append_drop (g * g) grid]
      rw [writeCells_append, hinner]
      have he : 2 + 3 * (grid.take (g * g)).length = 2 + 3 * (g * g) := by
        simp [List.length_take]
        omega
      rw [he]
    rw [houter]
    have hblen : (([0xAB, g % 256] : List Nat) ++ (grid.take (g * g)).flatMap (encCell mb) ++
        [0]).length = 2 + 3 * (g * g) + 1 := by
      simp only [List.length_append, flatMap_encCell_length, List.length_take,
        List.length_cons, List.length_nil]
      omega
    have hwrite : ∀ (cells : List Cell) (buf : List Nat), buf.length = 2 + 3 * (g * g) + 1 →
        (writeCells mb cells (2 + 3 * (g * g)) buf).set
            ((writeCells mb cells (2 + 3 * (g * g)) buf).length - 1) 0xBA =
          buf.set (2 + 3 * (g * g)) 0xBA := by
      intro cells buf hb
      rw [writeCells_length]
      cases cells with
      | nil =>
        simp only [writeCells]
        rw [hb]
        simp
      | cons c cs =>
        simp only [writeCells]
        rw [List.set_eq_of_length_le (show (buf.set (2 + 3 * (g * g))
            (toByte (cellChannel mb c.active c.r))).length ≤ 2 + 3 * (g * g) + 1 by
          simp [hb]),
          List.set_eq_of_length_le (show (buf.set (2 + 3 * (g * g))
            (toByte (cellChannel mb c.active c.r))).length ≤ 2 + 3 * (g * g) + 2 by
          simp [hb]),
          writeCells_oob mb cs _ _ (by simp [hb]),
          hb, Nat.add_sub_cancel, List.set_set]
    rw [hwrite _ _ hblen]
    have hfin : (([0xAB, g % 256] : List Nat) ++ (grid.take (g * g)).flatMap (encCell mb) ++
        [0]).set (2 + 3 * (g * g)) 0xBA =
        [0xAB, g % 256] ++ (grid.take (g * g)).flatMap (encCell mb) ++ [0xBA] := by
      have hpre : (([0xAB, g % 256] : List Nat) ++
          (grid.take (g * g)).flatMap (encCell mb)).length = 2 + 3 * (g * g) := by
        simp only [List.length_append, flatMap_encCell_length, List.length_take,
          List.length_cons, List.length_nil]
        omega
      rw [List.set_append_right _ _ (le_of_eq hpre), hpre, Nat.sub_self]
      rfl
    rw [hfin]
    have hz : g * g - grid.length = 0 := by omega
    rw [hz]
    simp

theorem sendGrid_length (grid : List Cell) (mb : Rat) (g : Nat) :
    (sendGridToArduino grid mb g).length = 2 + 3 * (g * g) + 1 := by
  rw [sendGrid_eq]
  simp only [List.length_append, flatMap_encCell_length, List.length_take,
    List.length_replicate, List.length_cons, List.length_nil]
  omega

theorem toByte_of_bounds {x : Int} (h0 : 0 ≤ x) (h1 : x ≤ 255) : toByte x = x.toNat := by
  rw [toByte, Int.emod_eq_of_lt h0 (by omega)]

theorem jsRound_scale_bounds {v : Int} {mb : Rat} (h0 : 0 ≤ v) (h1 : v ≤ 255)
    (hmb0 : 0 ≤ mb) (hmb1 : mb ≤ 100) :
    0 ≤ jsRound ((v : Rat) * (mb / 100)) ∧ jsRound ((v : Rat) * (mb / 100)) ≤ 255 := by
  have hp0 : (0 : Rat) ≤ (v : Rat) * (mb / 100) :=
    mul_nonneg (by exact_mod_cast h0) (div_nonneg hmb0 (by norm_num))
  have hp1 : (v : Rat) * (mb / 100) ≤ 255 := by
    have hv : (v : Rat) ≤ 255 := by exact_mod_cast h1
    have hd : mb / 100 ≤ 1 := (div_le_one (by norm_num)).mpr hmb1
    calc (v : Rat) * (mb / 100) ≤ 255 * 1 :=
          mul_le_mul hv hd (div_nonneg hmb0 (by norm_num)) (by norm_num)
      _ = 255 := by norm_num
  constructor
  · exact Int.le_floor.mpr (by push_cast; linarith)
  · have hlt : jsRound ((v : Rat) * (mb / 100)) < 256 := by
      rw [jsRound]
      exact Int.floor_lt.mpr (by push_cast; linarith)
    omega

/-- C4: for a grid of exactly gridSize^2 cells with components in [0,255] and
masterBrightness in [0,100], the encoder emits exactly
`[0xAB, gridSize] ++ R,G,B per cell ++ [0xBA]` of length 2 + 3*gridSize^2 + 1,
where each channel byte is `round(component * masterBrightness/100)` for an
active cell and 0 for an inactive one; in particular the spec's concrete
2x2/brightness-50 frame is produced byte for byte. -/
theorem frame_encoding (grid : List Cell) (mb : Rat) (g : Nat)
    (hlen : grid.length = g * g) (hg : g < 256)
    (hcell : ∀ c ∈ grid, 0 ≤ c.r ∧ c.r ≤ 255 ∧ 0 ≤ c.g ∧ c.g ≤ 255 ∧ 0 ≤ c.b ∧ c.b ≤ 255)
    (hmb0 : 0 ≤ mb) (hmb1 : mb ≤ 100) :
    sendGridToArduino grid mb g =
      [0xAB, g] ++ (grid.flatMap fun c =>
        if c.active then
          [(jsRound ((c.r : Rat) * (mb / 100))).toNat,
           (jsRound ((c.g : Rat) * (mb / 100))).toNat,
           (jsRound ((c.b : Rat) * (mb / 100))).toNat]
        else [0, 0, 0]) ++ [0xBA] ∧
    (sendGridToArduino grid mb g).length = 2 + 3 * (g * g) + 1 ∧
    sendGridToArduino (List.replicate 4 ⟨200, 100, 50, true⟩) 50 2 =
      [0xAB, 2, 100, 50, 25, 100, 50, 25, 100, 50, 25, 100, 50, 25, 0xBA] := by
  refine ⟨?_, sendGrid_length grid mb g, by decide⟩
  have ht : grid.take (g * g) = grid := by
    rw [← hlen]
    exact List.take_length grid
  have hz : g * g - grid.length = 0 := by omega
  rw [sendGrid_eq, ht, hz, Nat.mod_eq_of_lt hg]
  simp only [List.replicate_zero, List.append_nil]
  have hcells : ∀ c ∈ grid, encCell mb c =
      (fun c : Cell => if c.active then
        [(jsRound ((c.r : Rat) * (mb / 100))).toNat,
         (jsRound ((c.g : Rat) * (mb / 100))).toNat,
         (jsRound ((c.b : Rat) * (mb / 100))).toNat]
      else [0, 0, 0]) c := by
    intro c hc
    obtain ⟨hr0, hr1, hg0, hg1, hb0, hb1⟩ := hcell c hc
    by_cases hca : c.active
    · obtain ⟨ar0, ar1⟩ := jsRound_scale_bounds hr0 hr1 hmb0 hmb1
      obtain ⟨ag0, ag1⟩ := jsRound_scale_bounds hg0 hg1 hmb0 hmb1
      obtain ⟨ab0, ab1⟩ := jsRound_scale_bounds hb0 hb1 hmb0 hmb1
      simp only [encCell, cellChannel, hca, if_true,
        toByte_of_bounds ar0 ar1, toByte_of_bounds ag0 ag1, toByte_of_bounds ab0 ab1]
    · have hz0 : toByte (jsRound ((0 : Rat) * (mb / 100))) = 0 := by
        norm_num [toByte, jsRound]
      simp only [encCell, cellChannel, hca, if_false, hz0, Bool.false_eq_true]
  rw [flatMap_congr_mem hcells]

/-- Witness for C4 at the spec's concrete frame-encoding test. -/
theorem frame_encoding_witness :
    ((List.replicate 4 (⟨200, 100, 50, true⟩ : Cell)).length = 2 * 2 ∧ (2 : Nat) < 256 ∧
      (∀ c ∈ List.replicate 4 (⟨200, 100, 50, true⟩ : Cell),
        0 ≤ c.r ∧ c.r ≤ 255 ∧ 0 ≤ c.g ∧ c.g ≤ 255 ∧ 0 ≤ c.b ∧ c.b ≤ 255) ∧
      (0 : Rat) ≤ 50 ∧ (50 : Rat) ≤ 100) ∧
    sendGridToArduino (List.replicate 4 ⟨200, 100, 50, true⟩) 50 2 =
      [0xAB, 2, 100, 50, 25, 100, 50, 25, 100, 50, 25, 100, 50, 25, 0xBA] :=
  ⟨⟨by decide, by decide, by decide, by decide, by decide⟩,
    (frame_encoding (List.replicate 4 ⟨200, 100, 50, true⟩) 50 2 (by decide) (by decide)
      (by decide) (by decide) (by decide)).2.2⟩

/-- C10 (implicit): whatever the length of the grid passed in, the frame is
well formed: it has exactly 2 + 3*gridSize^2 + 1 bytes, starts with 0xAB and
the grid size, and ends with 0xBA; the frame equals the frame of the grid
truncated or padded (with inactive black, i.e. zero bytes) to gridSize^2 cells,
so extra cells never change the frame and missing cells contribute 0,0,0. -/
theorem frame_wellformed (grid : List Cell) (mb : Rat) (g : Nat) (hg : g < 256) :
    (sendGridToArduino grid mb g).length = 2 + 3 * (g * g) + 1 ∧
    (sendGridToArduino grid mb g).getD 0 0 = 0xAB ∧
    (sendGridToArduino grid mb g).getD 1 0 = g ∧
    (sendGridToArduino grid mb g).getD (2 + 3 * (g * g)) 0 = 0xBA ∧
    sendGridToArduino grid mb g =
      sendGridToArduino (grid.take (g * g) ++
        List.replicate (g * g - grid.length) blackCell) mb g ∧
    (grid.length ≤ g * g →
      sendGridToArduino grid mb g =
        [0xAB, g] ++ grid.flatMap (encCell mb) ++
          List.replicate (3 * (g * g - grid.length)) 0 ++ [0xBA]) := by
  have hpre : ∀ F : List Nat, F.length = 3 * (g * g) →
      (([0xAB, g % 256] : List Nat) ++ F).length = 2 + 3 * (g * g) := by
    intro F hF
    simp only [List.length_append, List.length_cons, List.length_nil, hF]
  have hflat : ((grid.take (g * g) ++
      List.replicate (g * g - grid.length) blackCell).flatMap (encCell mb)).length =
      3 * (g * g) := by
    simp only [flatMap_encCell_length, List.length_append, List.length_take,
      List.length_replicate]
    omega
  refine ⟨sendGrid_length grid mb g, by rw [sendGrid_eq]; rfl, ?_, ?_, ?_, ?_⟩
  · have h1 : (sendGridToArduino grid mb g).getD 1 0 = g % 256 := by
      rw [sendGrid_eq]
      rfl
    rw [h1, Nat.mod_eq_of_lt hg]
  · rw [sendGrid_eq, List.getD_eq_getElem?_getD,
      List.getElem?_append_right (by rw [hpre _ hflat])]
    rw [hpre _ hflat, Nat.sub_self]
    rfl
  · rw [sendGrid_eq, sendGrid_eq]
    have hn : (grid.take (g * g) ++
        List.replicate (g * g - grid.length) blackCell).length = g * g := by
      simp only [List.length_append, List.length_take, List.length_replicate]
      omega
    rw [List.take_of_length_le (le_of_eq hn), hn, Nat.sub_self]
    simp
  · intro hle
    rw [sendGrid_eq, List.take_of_length_le hle, List.flatMap_append, flat_replicate_black,
      Nat.mod_eq_of_lt hg]
    simp [List.append_assoc]

/-- Witness for C10 with a grid shorter than gridSize^2 and out-of-range
colour components. -/
theorem frame_wellformed_witness :
    ((2 : Nat) < 256) ∧
    (sendGridToArduino [⟨300, -5, 999, true⟩] 77 2).length = 2 + 3 * (2 * 2) + 1 :=
  ⟨by decide, (frame_wellformed [⟨300, -5, 999, true⟩] 77 2 (by decide)).1⟩

/-! ## C9: the Full Spectrum / Balanced classification -/

/-- C9 counterexample: a single active cell with r = 220, g = 243, b = 197.
No channel dominates by the 1.3 ratio, the averages are not mutually within 25
(|avgG - avgB| = 46) and avgB = 197 is not above 200, so the claim predicts
"Balanced"; the code only compares G and B against R, so it reports
"Full Spectrum". -/
theorem full_spectrum_counterexample :
    (liveAnalysis [⟨220, 243, 197, true⟩]).dominantSpectrum = "Full Spectrum" ∧
    avgR [⟨220, 243, 197, true⟩] = 220 ∧
    avgG [⟨220, 243, 197, true⟩] = 243 ∧
    avgB [⟨220, 243, 197, true⟩] = 197 ∧
    ¬(avgR [⟨220, 243, 197, true⟩] > avgG [⟨220, 243, 197, true⟩] * 1.3 ∧
      avgR [⟨220, 243, 197, true⟩] > avgB [⟨220, 243, 197, true⟩] * 1.3) ∧
    ¬(avgG [⟨220, 243, 197, true⟩] > avgR [⟨220, 243, 197, true⟩] * 1.3 ∧
      avgG [⟨220, 243, 197, true⟩] > avgB [⟨220, 243, 197, true⟩] * 1.3) ∧
    ¬(avgB [⟨220, 243, 197, true⟩] > avgR [⟨220, 243, 197, true⟩] * 1.3 ∧
      avgB [⟨220, 243, 197, true⟩] > avgG [⟨220, 243, 197, true⟩] * 1.3) ∧
    ¬(|avgG [⟨220, 243, 197, true⟩] - avgB [⟨220, 243, 197, true⟩]| < 25) ∧
    ¬(avgB [⟨220, 243, 197, true⟩] > 200) := by
  refine ⟨by decide, by decide, by decide, by decide, by decide, by decide, by decide,
    by decide, by decide⟩

/-- C9 (amended): for a grid with at least one active cell, when no channel
average exceeds both others by the 1.3 ratio, the classification is
"Full Spectrum" exactly when `|avgR - avgG| < 25`, `|avgR - avgB| < 25` and
`avgR > 200` — the green and blue averages are compared only against red, not
against each other, and only the red average must exceed 200 — and otherwise it
is "Balanced". -/
theorem full_spectrum_rule (grid : List Cell)
    (hact : (activeCells grid).length ≠ 0)
    (hnr : ¬(avgR grid > avgG grid * 1.3 ∧ avgR grid > avgB grid * 1.3))
    (hng : ¬(avgG grid > avgR grid * 1.3 ∧ avgG grid > avgB grid * 1.3))
    (hnb : ¬(avgB grid > avgR grid * 1.3 ∧ avgB grid > avgG grid * 1.3)) :
    ((liveAnalysis grid).dominantSpectrum = "Full Spectrum" ↔
      |avgR grid - avgG grid| < 25 ∧ |avgR grid - avgB grid| < 25 ∧ avgR grid > 200) ∧
    ((liveAnalysis grid).dominantSpectrum = "Full Spectrum" ∨
      (liveAnalysis grid).dominantSpectrum = "Balanced") := by
  rw [liveAnalysis, if_neg hact]
  simp only [if_neg hnr, if_neg hng, if_neg hnb]
  by_cases hfs : |avgR grid - avgG grid| < 25 ∧ |avgR grid - avgB grid| < 25 ∧ avgR grid > 200
  · rw [if_pos hfs]
    exact ⟨⟨fun _ => hfs, fun _ => rfl⟩, Or.inl rfl⟩
  · rw [if_neg hfs]
    refine ⟨⟨fun h => absurd h (by decide), fun h => absurd h hfs⟩, Or.inr rfl⟩

/-- Witness for C9 (amended) on a single near-white active cell, classified
"Full Spectrum". -/
theorem full_spectrum_rule_witness :
    ((activeCells [⟨210, 205, 215, true⟩]).length ≠ 0 ∧
      ¬(avgR [⟨210, 205, 215, true⟩] > avgG [⟨210, 205, 215, true⟩] * 1.3 ∧
        avgR [⟨210, 205, 215, true⟩] > avgB [⟨210, 205, 215, true⟩] * 1.3) ∧
      ¬(avgG [⟨210, 205, 215, true⟩] > avgR [⟨210, 205, 215, true⟩] * 1.3 ∧
        avgG [⟨210, 205, 215, true⟩] > avgB [⟨210, 205, 215, true⟩] * 1.3) ∧
      ¬(avgB [⟨210, 205, 215, true⟩] > avgR [⟨210, 205, 215, true⟩] * 1.3 ∧
        avgB [⟨210, 205, 215, true⟩] > avgG [⟨210, 205, 215, true⟩] * 1.3)) ∧
    (((liveAnalysis [⟨210, 205, 215, true⟩]).dominantSpectrum = "Full Spectrum" ↔
        |avgR [⟨210, 205, 215, true⟩] - avgG [⟨210, 205, 215, true⟩]| < 25 ∧
          |avgR [⟨210, 205, 215, true⟩] - avgB [⟨210, 205, 215, true⟩]| < 25 ∧
          avgR [⟨210, 205, 215, true⟩] > 200) ∧
      ((liveAnalysis [⟨210, 205, 215, true⟩]).dominantSpectrum = "Full Spectrum" ∨
        (liveAnalysis [⟨210, 205, 215, true⟩]).dominantSpectrum = "Balanced")) :=
  ⟨⟨by decide, by decide, by decide, by decide⟩,
    full_spectrum_rule [⟨210, 205, 215, true⟩] (by decide) (by decide) (by decide) (by decide)⟩

end HortLED
